import Mathlib

/-!
Verification of the EmiReader point-to-cell rasterizer
(`src/addEmiDataToMesh/addEmiDataToMesh.cpp`).

The C++ routine `getDataFromCSV` projects the input mesh onto the z = 0
plane, builds a spatial grid over the projected nodes, and for every
sample point (x, y, value) finds the nearest node, walks the cells
incident to that node, tests the triangle formed by each cell's first
three nodes for containment, accumulates the value into the first
containing cell, and finally averages each cell's accumulated sum by its
sample counter.

Machine doubles are embedded as exact rationals (ℚ); the library
helpers whose bodies live in the external OpenGeoSys library
(`projectMeshOntoPlane`, `GeoLib::Grid::getNearestPoint`,
`GeoLib::gaussPointInTriangle`) are modelled from their documented
semantics as noted on each definition.
-/

namespace EmiReader

/-- A 3D point with rational coordinates.  Sample points reuse this
type: `x`, `y` hold the position and `z` holds the measured value,
exactly as the C++ code stores CSV columns 1, 2, 3 in a
`GeoLib::Point`. -/
structure Point3 where
  x : ℚ
  y : ℚ
  z : ℚ
deriving DecidableEq, Repr

instance : Inhabited Point3 := ⟨⟨0, 0, 0⟩⟩

/-- A mesh: an ordered list of nodes (the position in the list is the
node id) and an ordered list of cells, each an ordered list of node
indices (the position in the list is the cell id), mirroring
`MeshLib::Mesh`.  `props` stands for the mesh's attached property
arrays (`MeshLib::Properties`); the rasterizer never reads or writes
them. -/
structure Mesh where
  nodes : List Point3
  cells : List (List ℕ)
  props : List (List ℚ) := []
deriving DecidableEq, Repr

/-- Euclidean dot product. -/
def dot (a b : Point3) : ℚ := a.x * b.x + a.y * b.y + a.z * b.z

/-- Componentwise difference. -/
def psub (a b : Point3) : Point3 := ⟨a.x - b.x, a.y - b.y, a.z - b.z⟩

/-- Scalar multiple. -/
def pscale (c : ℚ) (a : Point3) : Point3 := ⟨c * a.x, c * a.y, c * a.z⟩

/-- Modelled from the spec: the body of
`MeshLib::projectMeshOntoPlane` lives in the external OpenGeoSys
library, not in this repository; per the spec it replaces each node
coordinate by its orthogonal projection onto the plane given by
`origin` and `normal`.  Orthogonal projection of `p`:
`p - (((p - origin) · normal) / (normal · normal)) * normal`. -/
def projectPointOntoPlane (origin normal p : Point3) : Point3 :=
  psub p (pscale (dot (psub p origin) normal / dot normal normal) normal)

/-- Modelled from the spec: `projectMeshOntoPlane` produces a
structurally identical mesh with node coordinates replaced by their
projections; cells (hence ids and adjacency) and properties are
untouched. -/
def projectMeshOntoPlane (m : Mesh) (origin normal : Point3) : Mesh :=
  ⟨m.nodes.map (projectPointOntoPlane origin normal), m.cells, m.props⟩

/-- Squared Euclidean distance. -/
def sqDist (a b : Point3) : ℚ :=
  (a.x - b.x) ^ 2 + (a.y - b.y) ^ 2 + (a.z - b.z) ^ 2

/-- Modelled from the spec: `GeoLib::Grid::getNearestPoint` (external
library) returns a node at minimal Euclidean distance from the query
point; the index of the first node attaining the minimal squared
distance, `none` on an empty node list. -/
def nearestNode (nodes : List Point3) (p : Point3) : Option ℕ :=
  (List.range nodes.length).foldl
    (fun best i =>
      match best with
      | none => some i
      | some b =>
          if sqDist (nodes.getD i default) p < sqDist (nodes.getD b default) p
          then some i else some b)
    none

/-- Modelled from the spec: `GeoLib::gaussPointInTriangle` (external
library) decides containment of a point in the closed triangle `a b c`
via barycentric coordinates (the spec: point-in-triangle test using
barycentric coordinates); boundary points are contained, a degenerate
triangle contains nothing.  Only the x/y components matter here: all
calls in `getDataFromCSV` pass points with z = 0. -/
def pointInTriangle (p a b c : Point3) : Bool :=
  let det := (b.x - a.x) * (c.y - a.y) - (c.x - a.x) * (b.y - a.y)
  if det = 0 then false
  else
    let s := ((p.x - a.x) * (c.y - a.y) - (c.x - a.x) * (p.y - a.y)) / det
    let t := ((b.x - a.x) * (p.y - a.y) - (p.x - a.x) * (b.y - a.y)) / det
    decide (0 ≤ s ∧ 0 ≤ t ∧ s + t ≤ 1)

/-- The coordinates of node `k` of cell `c` of mesh `m`
(`conn_elems[j]->getNode(k)` in the C++ source). -/
def cellNode (m : Mesh) (c : ℕ) (k : ℕ) : Point3 :=
  m.nodes.getD ((m.cells.getD c []).getD k 0) default

/-- The cells incident to node `n` (`node->getElements()` in the C++
source), in ascending cell-id order — the order in which
`MeshLib::Mesh` connects elements to nodes during construction. -/
def elemsOfNode (m : Mesh) (n : ℕ) : List ℕ :=
  (List.range m.cells.length).filter (fun c => (m.cells.getD c []).contains n)

/-- The containment test the C++ loop applies to a candidate cell: the
point is tested against the triangle formed by the cell's FIRST THREE
nodes only (`getNode(0)`, `getNode(1)`, `getNode(2)` at line 62 of
`addEmiDataToMesh.cpp`), regardless of how many nodes the cell has. -/
def cellTest (m : Mesh) (c : ℕ) (p : Point3) : Bool :=
  pointInTriangle p (cellNode m c 0) (cellNode m c 1) (cellNode m c 2)

/-- The cell a sample is assigned to, if any: drop the z coordinate,
find the nearest node, and return the first incident cell whose
first-three-node triangle contains the sample position (the `break` at
line 67 stops at the first hit).  `none` means the sample is dropped. -/
def assignedCell (m : Mesh) (s : Point3) : Option ℕ :=
  let pnt : Point3 := ⟨s.x, s.y, 0⟩
  match nearestNode m.nodes pnt with
  | none => none
  | some n => (elemsOfNode m n).find? (fun c => cellTest m c pnt)

/-- The accumulation loop of `getDataFromCSV` (lines 54-70): for each
sample, add its value to the assigned cell's running sum and bump that
cell's counter; a sample with no assigned cell changes nothing. -/
def processSamples (m : Mesh) :
    List Point3 → List ℚ → List ℕ → List ℚ × List ℕ
  | [], data, counter => (data, counter)
  | s :: rest, data, counter =>
    match assignedCell m s with
    | none => processSamples m rest data counter
    | some idx =>
        processSamples m rest (data.set idx (data.getD idx 0 + s.z))
          (counter.set idx (counter.getD idx 0 + 1))

/-- The rasterizer `getDataFromCSV` (lines 41-78): project the mesh
onto the z = 0 plane (origin (0,0,0), normal (0,0,-1)), run the
accumulation loop starting from all-zero sum and counter arrays of
length `n_elems`, then divide each cell's sum by its counter when the
counter is positive. -/
def getDataFromCSV (mesh : Mesh) (data_points : List Point3) : List ℚ :=
  let flat_mesh := projectMeshOntoPlane mesh ⟨0, 0, 0⟩ ⟨0, 0, -1⟩
  let n_elems := flat_mesh.cells.length
  let dc := processSamples flat_mesh data_points
    (List.replicate n_elems 0) (List.replicate n_elems 0)
  (List.range n_elems).map (fun i =>
    if 0 < dc.2.getD i 0 then dc.1.getD i 0 / (dc.2.getD i 0 : ℚ)
    else dc.1.getD i 0)

/-- The sublist of `samples` the rasterizer assigns to cell `c` (in
input order): those whose `assignedCell` is `some c`. -/
def samplesAssignedTo (m : Mesh) (samples : List Point3) (c : ℕ) : List Point3 :=
  samples.filter (fun s => assignedCell m s = some c)

/-- State-passing form of the call `getDataFromCSV(mesh, pts)`: the
C++ function takes the mesh by const reference and writes only to a
freshly allocated copy (`flat_mesh`, deleted at line 76 before
returning), so the caller's mesh after the call is the very mesh it
passed in; the only product is the returned array. -/
def getDataFromCSVRun (mesh : Mesh) (pts : List Point3) : Mesh × List ℚ :=
  (mesh, getDataFromCSV mesh pts)

/-- Membership in the closed quadrilateral cell `c` split along the
diagonal from node 0 to node 2 — the natural containment notion for a
quad, used to state what the source's first-three-nodes test misses. -/
def pointInQuad (m : Mesh) (c : ℕ) (p : Point3) : Bool :=
  pointInTriangle p (cellNode m c 0) (cellNode m c 1) (cellNode m c 2) ||
  pointInTriangle p (cellNode m c 0) (cellNode m c 2) (cellNode m c 3)

/-- Embedding of `addFilesAsArrays` (lines 80-111): each of the three
CSV reads either fails (`none`) or yields a point list; on any failed
read, or when the concatenated point list is empty, the function
returns the empty `no_data` vector, otherwise the rasterizer's output
on the concatenation. -/
def addFilesAsArrays (mesh : Mesh) (e1 e2 e3 : Option (List Point3)) : List ℚ :=
  match e1, e2, e3 with
  | some p1, some p2, some p3 =>
      if (p1 ++ p2 ++ p3).isEmpty then [] else getDataFromCSV mesh (p1 ++ p2 ++ p3)
  | _, _, _ => []

/-- Whether `addFilesAsArrays` prints its `ERR` diagnostic (line 101):
exactly when a read failed or the concatenated point list is empty. -/
def addFilesAsArraysErr (e1 e2 e3 : Option (List Point3)) : Bool :=
  match e1, e2, e3 with
  | some p1, some p2, some p3 => (p1 ++ p2 ++ p3).isEmpty
  | _, _, _ => true

/-- Observable outcome of one run of the `addEmiDataToMesh` tool: the
process exit code, whether an `ERR` diagnostic was printed, and
whether the output mesh file write was reached (line 184). -/
structure RunOutcome where
  exitCode : Int
  errorReported : Bool
  wroteOutput : Bool
deriving DecidableEq, Repr

/-- Embedding of `main` (lines 139-192) over the results of the
external file reads: `meshRead` is `none` when `readVTUFile` failed,
otherwise the mesh paired with the dimension `getDimension()`
reports; the six options are the three H-pass and three V-pass CSV
reads consumed by `addFilesAsArrays`. -/
def mainRun (meshRead : Option (Mesh × ℕ))
    (eH1 eH2 eH3 eV1 eV2 eV3 : Option (List Point3)) : RunOutcome :=
  match meshRead with
  | none => ⟨-2, true, false⟩
  | some md =>
    if md.2 ≠ 2 then ⟨-3, true, false⟩
    else
      let dataH := addFilesAsArrays md.1 eH1 eH2 eH3
      if dataH.isEmpty then ⟨-1, addFilesAsArraysErr eH1 eH2 eH3, false⟩
      else
        let dataV := addFilesAsArrays md.1 eV1 eV2 eV3
        if dataV.isEmpty then ⟨-1, addFilesAsArraysErr eV1 eV2 eV3, false⟩
        else ⟨0, false, true⟩

/-- The single-unit-square mesh of the spec's first scenario: nodes
(0,0), (1,0), (1,1), (0,1), one quad cell. -/
def sqMesh : Mesh := ⟨[⟨0,0,0⟩, ⟨1,0,0⟩, ⟨1,1,0⟩, ⟨0,1,0⟩], [[0, 1, 2, 3]], []⟩

/-- The spec's first scenario's samples. -/
def c8samples : List Point3 := [⟨1/4, 1/4, 10⟩, ⟨3/4, 3/4, 20⟩, ⟨5, 5, 999⟩]

/-- Two adjacent unit-square quads sharing the edge x = 1 (between
node 3 = (1,0) and node 0 = (1,1)); both cells list the shared-edge
nodes in positions whose triangle test misses part of that edge. -/
def twoQuadMesh : Mesh :=
  ⟨[⟨1, 1, 0⟩, ⟨0, 1, 0⟩, ⟨0, 0, 0⟩, ⟨1, 0, 0⟩, ⟨2, 0, 0⟩, ⟨2, 1, 0⟩],
   [[0, 1, 2, 3], [3, 4, 5, 0]], []⟩

/-- A sample sitting exactly on the shared edge x = 1 of
`twoQuadMesh`, strictly between its endpoints. -/
def edgeSample : Point3 := ⟨1, 2/5, 7⟩

/-- A mesh with one node and zero cells. -/
def noCellMesh : Mesh := ⟨[⟨0, 0, 0⟩], [], []⟩

/-! ## Helper lemmas -/

theorem getD_set_self {α : Type} (l : List α) (i : ℕ) (v d : α) (h : i < l.length) :
    (l.set i v).getD i d = v := by
  simp [List.getD_eq_getElem?_getD, List.getElem?_set, h]

theorem getD_set_ne {α : Type} (l : List α) (i j : ℕ) (v d : α) (h : i ≠ j) :
    (l.set i v).getD j d = l.getD j d := by
  simp [List.getD_eq_getElem?_getD, List.getElem?_set, h]

theorem getD_replicate {α : Type} (n i : ℕ) (d : α) :
    (List.replicate n d).getD i d = d := by
  simp only [List.getD_eq_getElem?_getD, List.getElem?_replicate]
  split <;> rfl

theorem find?_decomp {α : Type} (p : α → Bool) :
    ∀ (l : List α) (a : α), l.find? p = some a →
      p a = true ∧ ∃ pre post, l = pre ++ a :: post ∧ ∀ x ∈ pre, p x = false := by
  intro l
  induction l with
  | nil => intro a h; simp [List.find?] at h
  | cons x xs ih =>
    intro a h
    by_cases hx : p x = true
    · rw [List.find?_cons_of_pos xs hx] at h
      obtain rfl : x = a := by injection h
      exact ⟨hx, [], xs, rfl, by intro y hy; simp at hy⟩
    · rw [List.find?_cons_of_neg xs (by simpa using hx)] at h
      obtain ⟨hpa, pre, post, heq, hpre⟩ := ih a h
      refine ⟨hpa, x :: pre, post, by rw [heq]; rfl, ?_⟩
      intro y hy
      rcases List.mem_cons.mp hy with rfl | hy
      · simpa using hx
      · exact hpre y hy

/-- A cell id produced by `assignedCell` is a valid cell index. -/
theorem assignedCell_lt (m : Mesh) (s : Point3) (c : ℕ)
    (h : assignedCell m s = some c) : c < m.cells.length := by
  dsimp only [assignedCell] at h
  split at h
  · exact absurd h (by simp)
  · have hmem := List.mem_of_find?_eq_some h
    exact List.mem_range.mp (List.mem_of_mem_filter hmem)

/-- The accumulation loop computes, per cell, the running sum of the
values of the samples assigned to that cell and their count. -/
theorem processSamples_getD (m : Mesh) (ss : List Point3) :
    ∀ (data : List ℚ) (counter : List ℕ),
      data.length = m.cells.length → counter.length = m.cells.length →
      ∀ c : ℕ,
        (processSamples m ss data counter).1.getD c 0
          = data.getD c 0 + ((samplesAssignedTo m ss c).map Point3.z).sum
        ∧ (processSamples m ss data counter).2.getD c 0
          = counter.getD c 0 + (samplesAssignedTo m ss c).length := by
  induction ss with
  | nil =>
    intro d cnt _ _ c
    simp [processSamples, samplesAssignedTo]
  | cons s rest ih =>
    intro d cnt hd hcnt c
    cases h : assignedCell m s with
    | none =>
      have hstep : processSamples m (s :: rest) d cnt = processSamples m rest d cnt := by
        simp [processSamples, h]
      have hfilter : samplesAssignedTo m (s :: rest) c = samplesAssignedTo m rest c := by
        simp [samplesAssignedTo, List.filter_cons, h]
      rw [hstep, hfilter]
      exact ih d cnt hd hcnt c
    | some idx =>
      have hidx : idx < m.cells.length := assignedCell_lt m s idx h
      have hstep : processSamples m (s :: rest) d cnt
          = processSamples m rest (d.set idx (d.getD idx 0 + s.z))
              (cnt.set idx (cnt.getD idx 0 + 1)) := by
        simp [processSamples, h]
      rw [hstep]
      obtain ⟨ih1, ih2⟩ := ih (d.set idx (d.getD idx 0 + s.z))
        (cnt.set idx (cnt.getD idx 0 + 1))
        (by simpa using hd) (by simpa using hcnt) c
      rw [ih1, ih2]
      by_cases hc : idx = c
      · subst hc
        have hfilter : samplesAssignedTo m (s :: rest) idx
            = s :: samplesAssignedTo m rest idx := by
          simp [samplesAssignedTo, List.filter_cons, h]
        rw [hfilter]
        constructor
        · rw [getD_set_self d idx _ 0 (hd ▸ hidx)]
          simp; ring
        · rw [getD_set_self cnt idx _ 0 (hcnt ▸ hidx)]
          simp; omega
      · have hfilter : samplesAssignedTo m (s :: rest) c = samplesAssignedTo m rest c := by
          simp [samplesAssignedTo, List.filter_cons, h, hc]
        rw [hfilter, getD_set_ne d idx c _ 0 hc, getD_set_ne cnt idx c _ 0 hc]
        exact ⟨rfl, rfl⟩

/-- The two arrays keep their length through the accumulation loop. -/
theorem processSamples_length (m : Mesh) (ss : List Point3) :
    ∀ (data : List ℚ) (counter : List ℕ),
      (processSamples m ss data counter).1.length = data.length
      ∧ (processSamples m ss data counter).2.length = counter.length := by
  induction ss with
  | nil => intro d cnt; simp [processSamples]
  | cons s rest ih =>
    intro d cnt
    cases h : assignedCell m s with
    | none => simpa [processSamples, h] using ih d cnt
    | some idx =>
      have := ih (d.set idx (d.getD idx 0 + s.z)) (cnt.set idx (cnt.getD idx 0 + 1))
      simpa [processSamples, h] using this

/-- Unfolding of `getDataFromCSV` with the mesh's own cell count made
explicit (the projection preserves the cell list). -/
theorem getDataFromCSV_eq (mesh : Mesh) (samples : List Point3) :
    getDataFromCSV mesh samples
      = (List.range mesh.cells.length).map (fun i =>
          let dc := processSamples (projectMeshOntoPlane mesh ⟨0, 0, 0⟩ ⟨0, 0, -1⟩) samples
            (List.replicate mesh.cells.length 0) (List.replicate mesh.cells.length 0)
          if 0 < dc.2.getD i 0 then dc.1.getD i 0 / (dc.2.getD i 0 : ℚ)
          else dc.1.getD i 0) := rfl

/-- Orthogonal projection onto the plane through the origin with
normal (0,0,-1) simply zeroes the z coordinate. -/
theorem projectPoint_flatten (p : Point3) :
    projectPointOntoPlane ⟨0, 0, 0⟩ ⟨0, 0, -1⟩ p = ⟨p.x, p.y, 0⟩ := by
  simp only [projectPointOntoPlane, psub, pscale, dot, Point3.mk.injEq]
  refine ⟨by ring, by ring, by ring⟩

/-- C1: for every mesh with at least one cell and every sample list,
`getDataFromCSV` returns one entry per mesh cell, indexed by cell id;
each entry is the sum of the values of the samples assigned to that
cell divided by their number, and 0 for a cell with no assigned
sample. -/
theorem emi_C1 (mesh : Mesh) (samples : List Point3) (hcells : mesh.cells ≠ []) :
    (getDataFromCSV mesh samples).length = mesh.cells.length ∧
    ∀ c, c < mesh.cells.length →
      (getDataFromCSV mesh samples).getD c 0 =
        (if (samplesAssignedTo (projectMeshOntoPlane mesh ⟨0, 0, 0⟩ ⟨0, 0, -1⟩) samples c).length = 0
         then 0
         else ((samplesAssignedTo (projectMeshOntoPlane mesh ⟨0, 0, 0⟩ ⟨0, 0, -1⟩) samples c).map Point3.z).sum
              / ((samplesAssignedTo (projectMeshOntoPlane mesh ⟨0, 0, 0⟩ ⟨0, 0, -1⟩) samples c).length : ℚ)) := by
  constructor
  · rw [getDataFromCSV_eq]; simp
  · intro c hc
    have key := processSamples_getD (projectMeshOntoPlane mesh ⟨0, 0, 0⟩ ⟨0, 0, -1⟩) samples
        (List.replicate mesh.cells.length 0) (List.replicate mesh.cells.length 0)
        (by simp [projectMeshOntoPlane]) (by simp [projectMeshOntoPlane]) c
    obtain ⟨k1, k2⟩ := key
    rw [getD_replicate] at k1
    rw [getD_replicate] at k2
    rw [zero_add] at k1 k2
    have hentry : (getDataFromCSV mesh samples).getD c 0
        = (if 0 < (processSamples (projectMeshOntoPlane mesh ⟨0, 0, 0⟩ ⟨0, 0, -1⟩) samples
              (List.replicate mesh.cells.length 0) (List.replicate mesh.cells.length 0)).2.getD c 0
           then (processSamples (projectMeshOntoPlane mesh ⟨0, 0, 0⟩ ⟨0, 0, -1⟩) samples
              (List.replicate mesh.cells.length 0) (List.replicate mesh.cells.length 0)).1.getD c 0
              / ((processSamples (projectMeshOntoPlane mesh ⟨0, 0, 0⟩ ⟨0, 0, -1⟩) samples
              (List.replicate mesh.cells.length 0) (List.replicate mesh.cells.length 0)).2.getD c 0 : ℚ)
           else (processSamples (projectMeshOntoPlane mesh ⟨0, 0, 0⟩ ⟨0, 0, -1⟩) samples
              (List.replicate mesh.cells.length 0) (List.replicate mesh.cells.length 0)).1.getD c 0) := by
      rw [getDataFromCSV_eq]
      simp [List.getD_eq_getElem?_getD, List.getElem?_map, List.getElem?_range, hc]
    rw [hentry, k1, k2]
    by_cases hzero : (samplesAssignedTo (projectMeshOntoPlane mesh ⟨0, 0, 0⟩ ⟨0, 0, -1⟩) samples c).length = 0
    · rw [hzero]
      simp [List.length_eq_zero.mp hzero]
    · have hpos : 0 < (samplesAssignedTo (projectMeshOntoPlane mesh ⟨0, 0, 0⟩ ⟨0, 0, -1⟩) samples c).length :=
        Nat.pos_of_ne_zero hzero
      simp [hpos, hzero]

/-- C1 witness: on the unit-square mesh with the spec's three samples,
the returned array has exactly one entry (one cell). -/
theorem emi_C1_witness :
    sqMesh.cells ≠ [] ∧ (getDataFromCSV sqMesh c8samples).length = sqMesh.cells.length :=
  have h : sqMesh.cells ≠ [] := of_decide_eq_true (by with_unfolding_all rfl)
  ⟨h, (emi_C1 sqMesh c8samples h).1⟩

/-- C2: for every mesh, the rasterizer on the empty sample list
returns (normally, being a total function) the all-zero array of
length equal to the mesh's cell count. -/
theorem emi_C2 (mesh : Mesh) :
    getDataFromCSV mesh [] = List.replicate mesh.cells.length 0 ∧
    (getDataFromCSV mesh []).length = mesh.cells.length := by
  have h : getDataFromCSV mesh [] = List.replicate mesh.cells.length 0 := by
    rw [getDataFromCSV_eq]
    have hfun : ∀ i ∈ List.range mesh.cells.length,
        (if 0 < (processSamples (projectMeshOntoPlane mesh ⟨0, 0, 0⟩ ⟨0, 0, -1⟩) []
              (List.replicate mesh.cells.length 0) (List.replicate mesh.cells.length 0)).2.getD i 0
         then (processSamples (projectMeshOntoPlane mesh ⟨0, 0, 0⟩ ⟨0, 0, -1⟩) []
              (List.replicate mesh.cells.length 0) (List.replicate mesh.cells.length 0)).1.getD i 0
              / ((processSamples (projectMeshOntoPlane mesh ⟨0, 0, 0⟩ ⟨0, 0, -1⟩) []
              (List.replicate mesh.cells.length 0) (List.replicate mesh.cells.length 0)).2.getD i 0 : ℚ)
         else (processSamples (projectMeshOntoPlane mesh ⟨0, 0, 0⟩ ⟨0, 0, -1⟩) []
              (List.replicate mesh.cells.length 0) (List.replicate mesh.cells.length 0)).1.getD i 0)
        = 0 := by
      intro i _
      simp [processSamples, getD_replicate]
    calc (List.range mesh.cells.length).map _
        = (List.range mesh.cells.length).map (fun _ => (0 : ℚ)) := List.map_congr_left hfun
      _ = List.replicate mesh.cells.length 0 := by
          rw [List.map_const', List.length_range]
  exact ⟨h, by rw [h, List.length_replicate]⟩

/-- C5 counterexample: a mesh with one node and zero cells; the
rasterizer does NOT report any error on it — it returns the normal
(empty) per-cell array even for a nonempty sample list, since the
source contains no emptiness check at all. -/
theorem emi_C5_counterexample :
    noCellMesh.cells.length = 0 ∧ noCellMesh.nodes.length = 1 ∧
    getDataFromCSV noCellMesh [⟨0, 0, 5⟩] = [] :=
  of_decide_eq_true (by with_unfolding_all rfl)

/-- C5 amended: `getDataFromCSV` performs no mesh validation; for any
mesh with zero cells and any sample list it returns the empty array as
a normal result (one entry per cell, of which there are none). -/
theorem emi_C5_theorem (m : Mesh) (samples : List Point3) (h : m.cells = []) :
    getDataFromCSV m samples = [] := by
  rw [getDataFromCSV_eq, h]
  simp

/-- C5 amended witness: the zero-cell mesh with a nonempty sample
list yields the empty array. -/
theorem emi_C5_witness :
    noCellMesh.cells = [] ∧ getDataFromCSV noCellMesh [⟨1, 1, 3⟩] = [] :=
  have h : noCellMesh.cells = [] := rfl
  ⟨h, emi_C5_theorem noCellMesh [⟨1, 1, 3⟩] h⟩

/-- C6: the rasterizer call leaves the caller's mesh unchanged — its
nodes, cells and property arrays after the call are those passed in;
the only product is the returned array.  (In the source the mesh is
taken by const reference and the function writes only to the
`flat_mesh` copy it allocates and deletes itself.) -/
theorem emi_C6 (mesh : Mesh) (pts : List Point3) :
    (getDataFromCSVRun mesh pts).1.nodes = mesh.nodes ∧
    (getDataFromCSVRun mesh pts).1.cells = mesh.cells ∧
    (getDataFromCSVRun mesh pts).1.props = mesh.props ∧
    (getDataFromCSVRun mesh pts).1 = mesh ∧
    (getDataFromCSVRun mesh pts).2 = getDataFromCSV mesh pts :=
  ⟨rfl, rfl, rfl, rfl, rfl⟩

/-- C7: projecting with origin (0,0,0) and normal (0,0,-1) preserves
the cell list (hence all cell ids and the node-cell adjacency), the
property arrays, and the node count with node ids positionally
preserved; each node's coordinate is replaced by (x, y, 0). -/
theorem emi_C7 (m : Mesh) :
    (projectMeshOntoPlane m ⟨0, 0, 0⟩ ⟨0, 0, -1⟩).cells = m.cells ∧
    (projectMeshOntoPlane m ⟨0, 0, 0⟩ ⟨0, 0, -1⟩).props = m.props ∧
    (projectMeshOntoPlane m ⟨0, 0, 0⟩ ⟨0, 0, -1⟩).nodes.length = m.nodes.length ∧
    (∀ n, elemsOfNode (projectMeshOntoPlane m ⟨0, 0, 0⟩ ⟨0, 0, -1⟩) n = elemsOfNode m n) ∧
    (∀ i, (projectMeshOntoPlane m ⟨0, 0, 0⟩ ⟨0, 0, -1⟩).nodes.getD i default
        = ⟨(m.nodes.getD i default).x, (m.nodes.getD i default).y, 0⟩) := by
  refine ⟨rfl, rfl, by simp [projectMeshOntoPlane], fun n => rfl, fun i => ?_⟩
  simp only [projectMeshOntoPlane, List.getD_eq_getElem?_getD, List.getElem?_map]
  cases m.nodes[i]? with
  | none => rfl
  | some p => simp [projectPoint_flatten]

/-- C8: on the single unit-square mesh with samples (0.25,0.25,10),
(0.75,0.75,20) and (5,5,999), the rasterizer returns the single cell
value (10+20)/2 = 15, and the sample at (5,5) is assigned to no cell
(dropped). -/
theorem emi_C8 :
    getDataFromCSV sqMesh c8samples = [15] ∧
    assignedCell (projectMeshOntoPlane sqMesh ⟨0, 0, 0⟩ ⟨0, 0, -1⟩) ⟨5, 5, 999⟩ = none :=
  of_decide_eq_true (by with_unfolding_all rfl)

/-- C3 counterexample: in `twoQuadMesh` the two quads share the edge
x = 1 (nodes 3 = (1,0) and 0 = (1,1) belong to both cells); the sample
(1, 2/5) lies exactly on that shared edge, strictly between its
endpoints, yet the rasterizer assigns it to NO cell — both cells'
sums and counters stay 0 — because neither cell's first-three-node
triangle contains the point.  So the claim that such a sample is
assigned to exactly one of the two cells is false. -/
theorem emi_C3_counterexample :
    (twoQuadMesh.cells.getD 0 []).contains 3 = true ∧
    (twoQuadMesh.cells.getD 0 []).contains 0 = true ∧
    (twoQuadMesh.cells.getD 1 []).contains 3 = true ∧
    (twoQuadMesh.cells.getD 1 []).contains 0 = true ∧
    twoQuadMesh.nodes.getD 3 default = ⟨1, 0, 0⟩ ∧
    twoQuadMesh.nodes.getD 0 default = ⟨1, 1, 0⟩ ∧
    edgeSample.x = 1 ∧ 0 < edgeSample.y ∧ edgeSample.y < 1 ∧
    assignedCell twoQuadMesh edgeSample = none ∧
    getDataFromCSV twoQuadMesh [edgeSample] = [0, 0] :=
  of_decide_eq_true (by with_unfolding_all rfl)

/-- C3 (amended): a sample is never double-counted — when the
rasterizer assigns a sample to a cell `c`, processing that sample
updates exactly cell `c`'s sum and counter and no other cell's, and
`c` is the first cell in the nearest node's incidence order whose
first-three-node triangle contains the sample position.  (A sample on
a shared edge may also be assigned to NO cell when neither incident
cell's tested triangle contains it, as `emi_C3_counterexample`
shows.) -/
theorem emi_C3_theorem (m : Mesh) (s : Point3) (c : ℕ)
    (data : List ℚ) (counter : List ℕ)
    (h : assignedCell m s = some c) :
    processSamples m [s] data counter
      = (data.set c (data.getD c 0 + s.z), counter.set c (counter.getD c 0 + 1)) ∧
    (∃ n pre post,
        nearestNode m.nodes ⟨s.x, s.y, 0⟩ = some n ∧
        elemsOfNode m n = pre ++ c :: post ∧
        cellTest m c ⟨s.x, s.y, 0⟩ = true ∧
        ∀ c' ∈ pre, cellTest m c' ⟨s.x, s.y, 0⟩ = false) ∧
    (∀ c', c' ≠ c →
        (counter.set c (counter.getD c 0 + 1)).getD c' 0 = counter.getD c' 0 ∧
        (data.set c (data.getD c 0 + s.z)).getD c' 0 = data.getD c' 0) := by
  refine ⟨by simp [processSamples, h], ?_, ?_⟩
  · cases hn : nearestNode m.nodes ⟨s.x, s.y, 0⟩ with
    | none =>
      have : assignedCell m s = none := by simp [assignedCell, hn]
      rw [this] at h
      exact absurd h (by simp)
    | some n =>
      have hfind : (elemsOfNode m n).find? (fun c => cellTest m c ⟨s.x, s.y, 0⟩) = some c := by
        have : assignedCell m s
            = (elemsOfNode m n).find? (fun c => cellTest m c ⟨s.x, s.y, 0⟩) := by
          simp [assignedCell, hn]
        rw [this] at h
        exact h
      obtain ⟨hpc, pre, post, heq, hpre⟩ := find?_decomp _ _ _ hfind
      exact ⟨n, pre, post, rfl, heq, hpc, hpre⟩
  · intro c' hc'
    exact ⟨getD_set_ne _ _ _ _ _ (Ne.symm hc'), getD_set_ne _ _ _ _ _ (Ne.symm hc')⟩

/-- C3 witness: the sample (0.3, 0.4) in `twoQuadMesh` is assigned to
cell 0 and processing it updates exactly that cell's accumulators. -/
theorem emi_C3_witness :
    assignedCell twoQuadMesh ⟨3/10, 2/5, 7⟩ = some 0 ∧
    processSamples twoQuadMesh [⟨3/10, 2/5, 7⟩] [0, 0] [0, 0]
      = (([0, 0] : List ℚ).set 0 (([0, 0] : List ℚ).getD 0 0 + (⟨3/10, 2/5, 7⟩ : Point3).z),
         ([0, 0] : List ℕ).set 0 (([0, 0] : List ℕ).getD 0 0 + 1)) :=
  have h : assignedCell twoQuadMesh ⟨3/10, 2/5, 7⟩ = some 0 :=
    of_decide_eq_true (by with_unfolding_all rfl)
  ⟨h, (emi_C3_theorem twoQuadMesh ⟨3/10, 2/5, 7⟩ 0 [0, 0] [0, 0] h).1⟩

/-- C4: a sample assigned to no cell is silently dropped — removing it
from anywhere in the sample list leaves the accumulation loop's result
(every cell's sum and counter) unchanged — and every sample is either
dropped or assigned: the dropped count plus the assigned count equals
the total sample count. -/
theorem emi_C4 (m : Mesh) (s : Point3) (xs ys : List Point3)
    (data : List ℚ) (counter : List ℕ) (h : assignedCell m s = none) :
    processSamples m (xs ++ s :: ys) data counter = processSamples m (xs ++ ys) data counter ∧
    ∀ samples : List Point3,
      (samples.filter (fun t => (assignedCell m t).isNone)).length
        + (samples.filter (fun t => (assignedCell m t).isSome)).length = samples.length := by
  constructor
  · induction xs generalizing data counter with
    | nil => simp [processSamples, h]
    | cons x xs ih =>
      cases hx : assignedCell m x with
      | none => simpa [processSamples, hx] using ih _ _
      | some idx => simpa [processSamples, hx] using ih _ _
  · intro samples
    induction samples with
    | nil => simp
    | cons t rest ih =>
      cases ht : assignedCell m t with
      | none => simp [List.filter_cons, ht]; omega
      | some idx => simp [List.filter_cons, ht]; omega

/-- C4 witness: the out-of-mesh sample (5,5) on the unit-square mesh
is dropped: removing it leaves the loop state unchanged and the
conservation count holds on the one-sample list. -/
theorem emi_C4_witness :
    assignedCell sqMesh ⟨5, 5, 999⟩ = none ∧
    processSamples sqMesh ([] ++ ⟨5, 5, 999⟩ :: []) [0] [0]
      = processSamples sqMesh ([] ++ []) [0] [0] ∧
    (([⟨5, 5, 999⟩] : List Point3).filter (fun t => (assignedCell sqMesh t).isNone)).length
      + (([⟨5, 5, 999⟩] : List Point3).filter (fun t => (assignedCell sqMesh t).isSome)).length
      = 1 :=
  have h : assignedCell sqMesh ⟨5, 5, 999⟩ = none :=
    of_decide_eq_true (by with_unfolding_all rfl)
  ⟨h, (emi_C4 sqMesh ⟨5, 5, 999⟩ [] [] [0] [0] h).1,
    (emi_C4 sqMesh ⟨5, 5, 999⟩ [] [] [0] [0] h).2 [⟨5, 5, 999⟩]⟩

/-- C9: when the input mesh is read but its dimension is not 2, the
tool reports the error, exits with the small negative code -3
(lines 147-152), and never reaches the output write. -/
theorem emi_C9 (mesh : Mesh) (dim : ℕ)
    (eH1 eH2 eH3 eV1 eV2 eV3 : Option (List Point3)) (h : dim ≠ 2) :
    mainRun (some (mesh, dim)) eH1 eH2 eH3 eV1 eV2 eV3 = ⟨-3, true, false⟩ ∧
    (-3 : Int) < 0 ∧
    (mainRun (some (mesh, dim)) eH1 eH2 eH3 eV1 eV2 eV3).wroteOutput = false := by
  have hm : mainRun (some (mesh, dim)) eH1 eH2 eH3 eV1 eV2 eV3 = ⟨-3, true, false⟩ := by
    simp [mainRun, h]
  exact ⟨hm, by decide, by rw [hm]⟩

/-- C9 witness: a 3-dimensional mesh makes the tool exit with -3,
error reported, no output written. -/
theorem emi_C9_witness :
    (3 : ℕ) ≠ 2 ∧
    mainRun (some (noCellMesh, 3)) none none none none none none = ⟨-3, true, false⟩ :=
  have h : (3 : ℕ) ≠ 2 := by decide
  ⟨h, (emi_C9 noCellMesh 3 none none none none none none h).1⟩

/-- C10: the containment test the rasterizer applies to a cell looks
only at the triangle of the cell's first three nodes: for a
quadrilateral cell, a sample inside the quad (diagonal split at node
0-2) but outside that triangle fails the test and is not assigned to
that cell. -/
theorem emi_C10 (m : Mesh) (c : ℕ) (s : Point3)
    (hquad : (m.cells.getD c []).length = 4)
    (hin : pointInQuad m c ⟨s.x, s.y, 0⟩ = true)
    (hout : pointInTriangle ⟨s.x, s.y, 0⟩ (cellNode m c 0) (cellNode m c 1) (cellNode m c 2)
      = false) :
    cellTest m c ⟨s.x, s.y, 0⟩ = false ∧ assignedCell m s ≠ some c := by
  have hct : cellTest m c ⟨s.x, s.y, 0⟩ = false := hout
  refine ⟨hct, fun habs => ?_⟩
  cases hn : nearestNode m.nodes ⟨s.x, s.y, 0⟩ with
  | none =>
    have : assignedCell m s = none := by simp [assignedCell, hn]
    rw [this] at habs
    exact absurd habs (by simp)
  | some n =>
    have hfind : (elemsOfNode m n).find? (fun c => cellTest m c ⟨s.x, s.y, 0⟩) = some c := by
      have : assignedCell m s
          = (elemsOfNode m n).find? (fun c => cellTest m c ⟨s.x, s.y, 0⟩) := by
        simp [assignedCell, hn]
      rw [this] at habs
      exact habs
    have := List.find?_some hfind
    rw [hct] at this
    exact absurd this (by simp)

/-- C10 witness: on the unit-square cell, the point (0.25, 0.75) lies
inside the quad but outside the triangle of nodes 0,1,2, and the
sample there is not assigned to the cell. -/
theorem emi_C10_witness :
    (sqMesh.cells.getD 0 []).length = 4 ∧
    pointInQuad sqMesh 0 ⟨1/4, 3/4, 0⟩ = true ∧
    pointInTriangle ⟨1/4, 3/4, 0⟩ (cellNode sqMesh 0 0) (cellNode sqMesh 0 1) (cellNode sqMesh 0 2)
      = false ∧
    cellTest sqMesh 0 ⟨1/4, 3/4, 0⟩ = false ∧
    assignedCell sqMesh ⟨1/4, 3/4, 42⟩ ≠ some 0 :=
  have h1 : (sqMesh.cells.getD 0 []).length = 4 := of_decide_eq_true (by with_unfolding_all rfl)
  have h2 : pointInQuad sqMesh 0 ⟨1/4, 3/4, 0⟩ = true := of_decide_eq_true (by with_unfolding_all rfl)
  have h3 : pointInTriangle ⟨1/4, 3/4, 0⟩ (cellNode sqMesh 0 0) (cellNode sqMesh 0 1)
      (cellNode sqMesh 0 2) = false := of_decide_eq_true (by with_unfolding_all rfl)
  ⟨h1, h2, h3, (emi_C10 sqMesh 0 ⟨1/4, 3/4, 42⟩ h1 h2 h3).1, (emi_C10 sqMesh 0 ⟨1/4, 3/4, 42⟩ h1 h2 h3).2⟩

end EmiReader
